import Mathlib

/-!
Shallow embedding of the authentication and session-lifecycle subsystem of
the Inzora music-app backend (Go), covering:

* `internal/auth/jwt.go` — `JWTService` (token minting and verification),
  `AuthService` (`GenerateTokens`, `RefreshTokens`, `RevokeToken`,
  `RevokeAllUserTokens`), `ExtractTokenFromHeader`;
* `internal/auth/password.go` — Argon2id `PasswordHasher.Hash` / `Matches`;
* the refresh-token model and repository (`RefreshToken`, `IsValid`,
  `RevokeAndReplace`, `refreshTokenRepository`);
* the user service (`AuthenticateUser`) and the HTTP auth handlers
  (`Login`, `Logout`).

Conventions of the embedding:
* machine integers are `Nat`/`Int`; times are `Int` seconds; `time.Duration`
  TTLs are seconds;
* Go byte slices are `List Nat` (each entry < 256); Go strings that the code
  manipulates character-by-character are `List Char`; opaque strings
  (emails, jti values, secrets) are Lean `String`;
* UUIDs are `Nat`; the nondeterministic choices of the code (fresh UUIDs,
  random salts, the current time) are explicit arguments;
* the external crypto primitives (the JWT signing MAC and `argon2.IDKey`)
  are function parameters of the definitions that use them — the embedding
  assumes nothing about them beyond being functions;
* a Go `(T, error)` return is `Except String T`; a token string presented
  by a client is `Option SignedToken`, with `none` standing for a string
  that does not parse as a JWT at all.
-/

namespace MusicAuth

/-! ## TokenCodec: `internal/auth/jwt.go` -/

/-- Signing methods selectable in `NewJWTService`. -/
inductive SigMethod
  | HS256 | HS384 | HS512 | RS256 | RS384 | RS512
deriving DecidableEq, Repr

/-- `TokenType` — the `type` claim discriminator. -/
inductive TokenType
  | access
  | refresh
deriving DecidableEq, Repr

/-- `Claims`: the custom claims struct plus the embedded
`jwt.RegisteredClaims` fields set by `GenerateTokenPair`. -/
structure Claims where
  userID : Nat
  email : String
  roles : List String
  type : TokenType
  id : String
  subject : Nat
  issuedAt : Int
  expiresAt : Int
  notBefore : Int
  issuer : String
deriving DecidableEq, Repr

/-- A signed compact token: the JWT compact serialization is an injective
encoding of (header, claims, signature), so the embedding keeps the
structured form. `sig` is the raw MAC value. -/
structure SignedToken where
  method : SigMethod
  claims : Claims
  sig : Nat
deriving DecidableEq, Repr

/-- The signing primitive of the external JWT library: a MAC over the
(encoded) claims keyed by the secret, per signing method. -/
def MacFun : Type := SigMethod → String → Claims → Nat

/-- `TokenPair` as returned to clients. -/
structure TokenPair where
  accessToken : SignedToken
  refreshToken : SignedToken
  expiresIn : Int
  tokenType : String
deriving DecidableEq, Repr

/-- `JWTService` configuration (TTLs in seconds). -/
structure JWTService where
  accessSecret : String
  refreshSecret : String
  accessTokenTTL : Int
  refreshTokenTTL : Int
  signingMethod : SigMethod
deriving DecidableEq, Repr

/-- `NewJWTService`: signing-method selection with HS256 default. -/
def newJWTService (accessSecret refreshSecret : String)
    (accessTTL refreshTTL : Int) (method : String) : JWTService :=
  let signingMethod :=
    match method with
    | "HS256" => SigMethod.HS256
    | "HS384" => SigMethod.HS384
    | "HS512" => SigMethod.HS512
    | "RS256" => SigMethod.RS256
    | "RS384" => SigMethod.RS384
    | "RS512" => SigMethod.RS512
    | _ => SigMethod.HS256
  { accessSecret := accessSecret
    refreshSecret := refreshSecret
    accessTokenTTL := accessTTL
    refreshTokenTTL := refreshTTL
    signingMethod := signingMethod }

/-- `GenerateTokenPair`. `now` is `time.Now()`; `accessTokenID` and
`refreshTokenID` are the two `uuid.New().String()` draws. -/
def generateTokenPair (mac : MacFun) (j : JWTService) (userID : Nat)
    (email : String) (roles : List String) (now : Int)
    (accessTokenID refreshTokenID : String) : TokenPair :=
  let accessClaims : Claims :=
    { userID := userID, email := email, roles := roles
      type := TokenType.access
      id := accessTokenID, subject := userID
      issuedAt := now, expiresAt := now + j.accessTokenTTL
      notBefore := now, issuer := "music-app-backend" }
  let refreshClaims : Claims :=
    { userID := userID, email := email, roles := roles
      type := TokenType.refresh
      id := refreshTokenID, subject := userID
      issuedAt := now, expiresAt := now + j.refreshTokenTTL
      notBefore := now, issuer := "music-app-backend" }
  { accessToken :=
      { method := j.signingMethod, claims := accessClaims
        sig := mac j.signingMethod j.accessSecret accessClaims }
    refreshToken :=
      { method := j.signingMethod, claims := refreshClaims
        sig := mac j.signingMethod j.refreshSecret refreshClaims }
    expiresIn := j.accessTokenTTL
    tokenType := "Bearer" }

/-- `VerifyAccessToken`: keyfunc method check, signature check, the
jwt/v5 default registered-claim checks (`exp` not in the past, `nbf` not
in the future), then the `type` discriminator check. `none` is a string
that fails compact-serialization parsing. -/
def verifyAccessToken (mac : MacFun) (j : JWTService)
    (tokenString : Option SignedToken) (now : Int) : Except String Claims :=
  match tokenString with
  | none => .error "failed to parse access token"
  | some token =>
    if token.method ≠ j.signingMethod then
      .error "failed to parse access token: unexpected signing method"
    else if mac token.method j.accessSecret token.claims ≠ token.sig then
      .error "failed to parse access token: signature is invalid"
    else if token.claims.expiresAt < now then
      .error "failed to parse access token: token is expired"
    else if now < token.claims.notBefore then
      .error "failed to parse access token: token is not valid yet"
    else if token.claims.type ≠ TokenType.access then
      .error "invalid token type"
    else
      .ok token.claims

/-- `VerifyRefreshToken`: same checks keyed by the refresh secret and
requiring `type = refresh`. -/
def verifyRefreshToken (mac : MacFun) (j : JWTService)
    (tokenString : Option SignedToken) (now : Int) : Except String Claims :=
  match tokenString with
  | none => .error "failed to parse refresh token"
  | some token =>
    if token.method ≠ j.signingMethod then
      .error "failed to parse refresh token: unexpected signing method"
    else if mac token.method j.refreshSecret token.claims ≠ token.sig then
      .error "failed to parse refresh token: signature is invalid"
    else if token.claims.expiresAt < now then
      .error "failed to parse refresh token: token is expired"
    else if now < token.claims.notBefore then
      .error "failed to parse refresh token: token is not valid yet"
    else if token.claims.type ≠ TokenType.refresh then
      .error "invalid token type"
    else
      .ok token.claims

/-! ## RefreshTokenStore: the `RefreshToken` model and repository -/

/-- The persisted `RefreshToken` record (`refresh_tokens` table). -/
structure RefreshTokenRecord where
  id : Nat
  userID : Nat
  tokenID : String
  issuedAt : Int
  expiresAt : Int
  revoked : Bool
  replacedBy : Option String
  userAgent : Option String
  ip : Option String
  createdAt : Int
  updatedAt : Int
deriving DecidableEq, Repr

/-- `RefreshToken.IsValid`: not revoked and `ExpiresAt.After(time.Now())`. -/
def RefreshTokenRecord.isValid (rt : RefreshTokenRecord) (now : Int) : Bool :=
  !rt.revoked && now < rt.expiresAt

/-- `RefreshToken.IsExpired`. -/
def RefreshTokenRecord.isExpired (rt : RefreshTokenRecord) (now : Int) : Bool :=
  rt.expiresAt < now

/-- `RefreshToken.Revoke`. -/
def RefreshTokenRecord.revoke (rt : RefreshTokenRecord) (now : Int) :
    RefreshTokenRecord :=
  { rt with revoked := true, updatedAt := now }

/-- `RefreshToken.RevokeAndReplace` — mutates the receiver struct only. -/
def RefreshTokenRecord.revokeAndReplace (rt : RefreshTokenRecord)
    (replacementTokenID : String) (now : Int) : RefreshTokenRecord :=
  { rt with revoked := true, replacedBy := some replacementTokenID
            updatedAt := now }

/-- The backing `refresh_tokens` table, in insertion order. -/
abbrev Store : Type := List RefreshTokenRecord

/-- `refreshTokenRepository.Create`: insert, subject to the unique index
on `token_id`. -/
def repoCreate (db : Store) (t : RefreshTokenRecord) : Except String Store :=
  if db.any (fun r => r.tokenID = t.tokenID) then
    .error "duplicate key value violates unique constraint"
  else
    .ok (db ++ [t])

/-- `refreshTokenRepository.GetByTokenID`: `First` row with matching
`token_id`, or `gorm.ErrRecordNotFound` (`none`). -/
def repoGetByTokenID (db : Store) (tokenID : String) :
    Option RefreshTokenRecord :=
  db.find? (fun r => r.tokenID = tokenID)

/-- `refreshTokenRepository.RevokeByTokenID`:
`UPDATE refresh_tokens SET revoked = true WHERE token_id = ?`
(gorm also touches `updated_at`). Matching zero rows is still a success. -/
def repoRevokeByTokenID (db : Store) (tokenID : String) (now : Int) : Store :=
  db.map (fun r =>
    if r.tokenID = tokenID then { r with revoked := true, updatedAt := now }
    else r)

/-- `refreshTokenRepository.RevokeAllUserTokens`:
`UPDATE refresh_tokens SET revoked = true WHERE user_id = ?`. -/
def repoRevokeAllUserTokens (db : Store) (userID : Nat) (now : Int) : Store :=
  db.map (fun r =>
    if r.userID = userID then { r with revoked := true, updatedAt := now }
    else r)

/-- `refreshTokenRepository.CleanExpiredTokens`:
`DELETE FROM refresh_tokens WHERE expires_at < now`. -/
def repoCleanExpiredTokens (db : Store) (now : Int) : Store :=
  db.filter (fun r => !(r.expiresAt < now))

/-! ## SessionOrchestrator: `AuthService` -/

/-- `AuthService.GenerateTokens` (login path): mint a pair, re-verify the
fresh refresh token to read its claims, persist its record. `recID` is the
record's `gen_random_uuid()` primary key. -/
def generateTokens (mac : MacFun) (j : JWTService) (db : Store)
    (userID : Nat) (email : String) (roles : List String)
    (userAgent ip : String) (now : Int) (accessJti refreshJti : String)
    (recID : Nat) : Except String (TokenPair × Store) :=
  let tokenPair := generateTokenPair mac j userID email roles now accessJti refreshJti
  match verifyRefreshToken mac j (some tokenPair.refreshToken) now with
  | .error _ => .error "failed to parse generated refresh token"
  | .ok refreshClaims =>
    let refreshToken : RefreshTokenRecord :=
      { id := recID, userID := userID, tokenID := refreshClaims.id
        issuedAt := refreshClaims.issuedAt, expiresAt := refreshClaims.expiresAt
        revoked := false, replacedBy := none
        userAgent := some userAgent, ip := some ip
        createdAt := now, updatedAt := now }
    match repoCreate db refreshToken with
    | .error _ => .error "failed to store refresh token"
    | .ok db' => .ok (tokenPair, db')

/-- `AuthService.RefreshTokens`. Faithful to the source: after the validity
check, `storedToken.RevokeAndReplace(newRefreshClaims.ID)` mutates only the
struct copy returned by `GetByTokenID`; no repository call persists that
mutation, so the table keeps the old record unchanged and only gains the
new record. -/
def refreshTokens (mac : MacFun) (j : JWTService) (db : Store)
    (refreshTokenString : Option SignedToken) (userAgent ip : String)
    (now : Int) (accessJti refreshJti : String) (recID : Nat) :
    Except String (TokenPair × Store) :=
  match verifyRefreshToken mac j refreshTokenString now with
  | .error _ => .error "invalid refresh token"
  | .ok refreshClaims =>
    match repoGetByTokenID db refreshClaims.id with
    | none => .error "refresh token not found"
    | some storedToken =>
      if !(storedToken.isValid now) then
        .error "refresh token is revoked or expired"
      else
        let newTokenPair := generateTokenPair mac j refreshClaims.userID
          refreshClaims.email refreshClaims.roles now accessJti refreshJti
        match verifyRefreshToken mac j (some newTokenPair.refreshToken) now with
        | .error _ => .error "failed to parse new refresh token"
        | .ok newRefreshClaims =>
          let _localCopy := storedToken.revokeAndReplace newRefreshClaims.id now
          let newRefreshToken : RefreshTokenRecord :=
            { id := recID, userID := refreshClaims.userID
              tokenID := newRefreshClaims.id
              issuedAt := newRefreshClaims.issuedAt
              expiresAt := newRefreshClaims.expiresAt
              revoked := false, replacedBy := none
              userAgent := some userAgent, ip := some ip
              createdAt := now, updatedAt := now }
          match repoCreate db newRefreshToken with
          | .error _ => .error "failed to store new refresh token"
          | .ok db' => .ok (newTokenPair, db')

/-- `AuthService.RevokeToken` (logout): verify to extract the `jti`, then
revoke that record id. -/
def revokeToken (mac : MacFun) (j : JWTService) (db : Store)
    (refreshTokenString : Option SignedToken) (now : Int) :
    Except String Store :=
  match verifyRefreshToken mac j refreshTokenString now with
  | .error _ => .error "invalid refresh token"
  | .ok refreshClaims => .ok (repoRevokeByTokenID db refreshClaims.id now)

/-- `AuthService.RevokeAllUserTokens`. -/
def revokeAllUserTokens (db : Store) (userID : Nat) (now : Int) : Store :=
  repoRevokeAllUserTokens db userID now

/-! ## PasswordHasher: `internal/auth/password.go`

`base64.RawStdEncoding` (unpadded standard alphabet), Go `%d` printing and
`Sscanf` scanning of decimal numbers, and `strings.Split` are embedded as
executable `List Char` functions. `argon2.IDKey` is a function parameter. -/

/-- The standard base64 alphabet. -/
def b64Alphabet : List Char :=
  "ABCDEFGHIJKLMNOPQRSTUVWXYZabcdefghijklmnopqrstuvwxyz0123456789+/".toList

/-- Character for a six-bit group. -/
def b64Char (n : Nat) : Char := b64Alphabet.getD n 'A'

/-- Six-bit value of an alphabet character; `none` for a character outside
the alphabet (Go's `CorruptInputError`). -/
def b64Val (c : Char) : Option Nat := b64Alphabet.findIdx? (fun x => x = c)

/-- `base64.RawStdEncoding.EncodeToString` over bytes: three bytes to four
characters, with two-character and three-character final fragments and no
padding. -/
def encodeB64 : List Nat → List Char
  | [] => []
  | [a] => [b64Char (a / 4), b64Char (a % 4 * 16)]
  | [a, b] => [b64Char (a / 4), b64Char (a % 4 * 16 + b / 16), b64Char (b % 16 * 4)]
  | a :: b :: c :: rest =>
    b64Char (a / 4) :: b64Char (a % 4 * 16 + b / 16) ::
      b64Char (b % 16 * 4 + c / 64) :: b64Char (c % 64) :: encodeB64 rest

/-- `base64.RawStdEncoding.DecodeString`: four characters to three bytes,
final fragments of two or three characters allowed, a dangling single
character rejected. Go's default (non-`Strict`) decoder ignores trailing
bits, as this one does. -/
def decodeB64 : List Char → Option (List Nat)
  | [] => some []
  | [_] => none
  | [w, x] => do
    let w' ← b64Val w
    let x' ← b64Val x
    some [w' * 4 + x' / 16]
  | [w, x, y] => do
    let w' ← b64Val w
    let x' ← b64Val x
    let y' ← b64Val y
    some [w' * 4 + x' / 16, x' % 16 * 16 + y' / 4]
  | w :: x :: y :: z :: rest => do
    let w' ← b64Val w
    let x' ← b64Val x
    let y' ← b64Val y
    let z' ← b64Val z
    let tail ← decodeB64 rest
    some ((w' * 4 + x' / 16) :: (x' % 16 * 16 + y' / 4) :: (y' % 4 * 64 + z') :: tail)

/-- Decimal digit character. -/
def digitChar (n : Nat) : Char := Char.ofNat (48 + n)

/-- Worker for decimal printing, structurally recursive on a fuel bound
(any fuel above the digit count computes the digits; `natToChars` supplies
`n + 1`, which always suffices). -/
def natToCharsCore : Nat → Nat → List Char
  | 0, _ => []
  | fuel + 1, n =>
    if n < 10 then [digitChar n]
    else natToCharsCore fuel (n / 10) ++ [digitChar (n % 10)]

/-- Go `%d` printing of an unsigned integer. -/
def natToChars (n : Nat) : List Char := natToCharsCore (n + 1) n

/-- ASCII decimal digit test. -/
def goIsDigit (c : Char) : Bool := 48 ≤ c.toNat && c.toNat ≤ 57

/-- Consume leading decimal digits, most significant first. -/
def parseDigits : List Char → Nat → Nat × List Char
  | [], acc => (acc, [])
  | c :: cs, acc =>
    if goIsDigit c then parseDigits cs (acc * 10 + (c.toNat - 48))
    else (acc, c :: cs)

/-- Scan an unsigned decimal number (at least one digit), returning the
value and the unconsumed rest. -/
def scanNat (cs : List Char) : Option (Nat × List Char) :=
  match cs with
  | [] => none
  | c :: _ => if goIsDigit c then some (parseDigits cs 0) else none

/-- Require a literal character. -/
def expectChar (c : Char) : List Char → Option (List Char)
  | [] => none
  | x :: xs => if x = c then some xs else none

/-- `fmt.Sscanf(vals[2], "v=%d", &version)`: literal `v=` then a signed
decimal into an `int`; trailing input is not an error. -/
def scanVersionField (cs : List Char) : Option Int := do
  let cs ← expectChar 'v' cs
  let cs ← expectChar '=' cs
  match cs with
  | '-' :: rest => do
    let (n, _) ← scanNat rest
    some (-(n : Int))
  | _ => do
    let (n, _) ← scanNat cs
    some ((n : Int))

/-- `fmt.Sscanf(vals[3], "m=%d,t=%d,p=%d", &memory, &time, &threads)`:
unsigned decimals into `uint32`, `uint32`, `uint8`, with out-of-range
values an error. Returns `(memory, time, threads)`. -/
def scanParamsField (cs : List Char) : Option (Nat × Nat × Nat) := do
  let cs ← expectChar 'm' cs
  let cs ← expectChar '=' cs
  let (memory, cs) ← scanNat cs
  if memory ≥ 2 ^ 32 then none else do
  let cs ← expectChar ',' cs
  let cs ← expectChar 't' cs
  let cs ← expectChar '=' cs
  let (time, cs) ← scanNat cs
  if time ≥ 2 ^ 32 then none else do
  let cs ← expectChar ',' cs
  let cs ← expectChar 'p' cs
  let cs ← expectChar '=' cs
  let (threads, _) ← scanNat cs
  if threads ≥ 2 ^ 8 then none else
  some (memory, time, threads)

/-- `strings.Split` with a one-character separator: `n+1` pieces for `n`
separators. -/
def splitChar (sep : Char) : List Char → List (List Char)
  | [] => [[]]
  | c :: cs =>
    if c = sep then [] :: splitChar sep cs
    else
      match splitChar sep cs with
      | [] => [[c]]
      | h :: t => (c :: h) :: t

/-- `argon2.IDKey(password, salt, time, memory, threads, keyLen)` as an
abstract key-derivation function over byte lists. -/
def IdKeyFun : Type :=
  List Nat → List Nat → Nat → Nat → Nat → Nat → List Nat

/-- `argon2.Version` (x/crypto): 0x13. -/
def argon2Version : Nat := 19

/-- `PasswordHasher` parameters. -/
structure PasswordHasher where
  time : Nat
  memory : Nat
  threads : Nat
  keyLen : Nat
deriving DecidableEq, Repr

/-- `NewPasswordHasher`: key length fixed at 32. -/
def newPasswordHasher (time memory threads : Nat) : PasswordHasher :=
  { time := time, memory := memory, threads := threads, keyLen := 32 }

/-- `PasswordHasher.Hash`: derive the key from the fresh random `salt`
(an explicit argument here) and produce the self-describing encoded string
`$argon2id$v=19$m=<mem>,t=<time>,p=<par>$<b64 salt>$<b64 hash>`. -/
def PasswordHasher.hash (p : PasswordHasher) (idKey : IdKeyFun)
    (password salt : List Nat) : List Char :=
  let key := idKey password salt p.time p.memory p.threads p.keyLen
  '$' :: ("argon2id".toList ++
    '$' :: ('v' :: '=' :: natToChars argon2Version ++
    '$' :: ('m' :: '=' :: (natToChars p.memory ++
      ',' :: 't' :: '=' :: (natToChars p.time ++
      ',' :: 'p' :: '=' :: natToChars p.threads)) ++
    '$' :: (encodeB64 salt ++
    '$' :: encodeB64 key))))

/-- Error values surfaced by `Matches`. -/
inductive PwError
  | invalidHash
  | incompatibleVersion
  | scanError
  | decodeError
deriving DecidableEq, Repr

/-- `PasswordHasher.Matches`: split on `$`, check the field count, scan the
version and the embedded cost parameters, base64-decode salt and hash,
re-derive with the embedded parameters and the decoded hash's length, and
compare (`subtle.ConstantTimeCompare`, which is equality of byte slices).
The receiver's own parameters are never consulted. -/
def PasswordHasher.matches (_p : PasswordHasher) (idKey : IdKeyFun)
    (password : List Nat) (encodedHash : List Char) : Except PwError Bool :=
  match splitChar '$' encodedHash with
  | [_, _, v2, v3, v4, v5] =>
    match scanVersionField v2 with
    | none => .error .scanError
    | some version =>
      if version ≠ (argon2Version : Int) then .error .incompatibleVersion
      else
        match scanParamsField v3 with
        | none => .error .scanError
        | some (memory, time, threads) =>
          match decodeB64 v4 with
          | none => .error .decodeError
          | some salt =>
            match decodeB64 v5 with
            | none => .error .decodeError
            | some hash =>
              let otherHash := idKey password salt time memory threads hash.length
              if hash = otherHash then .ok true else .ok false
  | _ => .error .invalidHash

/-! ## User service: `internal/user` (`AuthenticateUser`) -/

/-- The `User` record (auth-relevant fields). The stored password is the
encoded hash string. -/
structure User where
  id : Nat
  email : Option String
  password : Option (List Char)
  displayName : Option String
  photoURL : Option String
  roles : List String
  isActive : Bool
  googleID : Option String
  lastLoginAt : Option Int
deriving DecidableEq, Repr

/-- The `users` table. -/
abbrev UserTable : Type := List User

/-- `repository.GetUserByEmail`: first row with `email = ?`. -/
def repoGetUserByEmail (tbl : UserTable) (email : String) : Option User :=
  tbl.find? (fun u => u.email = some email)

/-- `repository.UpdateUser` (`Save`): replace the row with the same id. -/
def repoUpdateUser (tbl : UserTable) (u : User) : UserTable :=
  tbl.map (fun x => if x.id = u.id then u else x)

/-- `user.Service.AuthenticateUser`: look up by email; absent user, absent
password hash, a `Matches` error, or a non-match all yield the same
`ErrAuthenticationFailed`; on success `last_login_at` is updated
best-effort and the user returned. The `IsActive` flag is never read. -/
def authenticateUser (idKey : IdKeyFun) (hasher : PasswordHasher)
    (tbl : UserTable) (email : String) (password : List Nat) (now : Int) :
    Except String User × UserTable :=
  match repoGetUserByEmail tbl email with
  | none => (.error "authentication failed", tbl)
  | some user =>
    match user.password with
    | none => (.error "authentication failed", tbl)
    | some storedHash =>
      match hasher.matches idKey password storedHash with
      | .ok true =>
        let user' := { user with lastLoginAt := some now }
        (.ok user', repoUpdateUser tbl user')
      | _ => (.error "authentication failed", tbl)

/-! ## HTTP handlers: `internal/transport/http/auth_handlers.go` -/

/-- Outcome of the `Login` handler after a well-formed request body. -/
inductive LoginResult
  | ok (status : Nat) (user : User) (pair : TokenPair)
  | fail (status : Nat) (code message : String)
deriving DecidableEq, Repr

/-- `AuthHandlers.Login`: authenticate, then issue and persist tokens.
Any authentication error maps to 401 `AUTHENTICATION_FAILED` /
"Invalid email or password". -/
def loginHandler (idKey : IdKeyFun) (hasher : PasswordHasher) (mac : MacFun)
    (j : JWTService) (users : UserTable) (db : Store) (email : String)
    (password : List Nat) (userAgent ip : String) (now : Int)
    (accessJti refreshJti : String) (recID : Nat) :
    LoginResult × UserTable × Store :=
  match authenticateUser idKey hasher users email password now with
  | (.error _, users') =>
    (.fail 401 "AUTHENTICATION_FAILED" "Invalid email or password", users', db)
  | (.ok u, users') =>
    match generateTokens mac j db u.id (u.email.getD "") u.roles
        userAgent ip now accessJti refreshJti recID with
    | .error _ =>
      (.fail 500 "TOKEN_GENERATION_FAILED"
        "Failed to generate authentication tokens", users', db)
    | .ok (pair, db') => (.ok 200 u pair, users', db')

/-- Response of the `Logout` handler. -/
structure LogoutResult where
  status : Nat
  message : String
deriving DecidableEq, Repr

/-- `AuthHandlers.Logout`: a `RevokeToken` failure is only logged; the
response is the 200 success body either way. -/
def logoutHandler (mac : MacFun) (j : JWTService) (db : Store)
    (refreshTokenString : Option SignedToken) (now : Int) :
    LogoutResult × Store :=
  match revokeToken mac j db refreshTokenString now with
  | .error _ => ({ status := 200, message := "Logged out successfully" }, db)
  | .ok db' => ({ status := 200, message := "Logged out successfully" }, db')

/-! ## The store-affecting operations, as one step relation -/

/-- Every operation of the repository and of `AuthService` that touches the
`refresh_tokens` table. -/
inductive StoreOp
  | create (t : RefreshTokenRecord)
  | getByTokenID (tokenID : String)
  | revokeByTokenID (tokenID : String)
  | revokeAllForUser (userID : Nat)
  | purgeExpired
  | refresh (tok : Option SignedToken) (userAgent ip : String)
      (accessJti refreshJti : String) (recID : Nat)
  | logout (tok : Option SignedToken)

/-- The table after running one operation (on an error the transaction
leaves the table unchanged). -/
def storeAfter (mac : MacFun) (j : JWTService) (now : Int) :
    StoreOp → Store → Store
  | .create t, db =>
    match repoCreate db t with
    | .ok db' => db'
    | .error _ => db
  | .getByTokenID _, db => db
  | .revokeByTokenID jti, db => repoRevokeByTokenID db jti now
  | .revokeAllForUser uid, db => repoRevokeAllUserTokens db uid now
  | .purgeExpired, db => repoCleanExpiredTokens db now
  | .refresh tok ua ip aJti rJti recID, db =>
    match refreshTokens mac j db tok ua ip now aJti rJti recID with
    | .ok (_, db') => db'
    | .error _ => db
  | .logout tok, db =>
    match revokeToken mac j db tok now with
    | .ok db' => db'
    | .error _ => db

/-! ## `ExtractTokenFromHeader` -/

/-- Go `unicode.IsSpace`. -/
def goIsSpace (c : Char) : Bool :=
  let n := c.toNat
  (9 ≤ n && n ≤ 13) || n = 32 || n = 133 || n = 160 || n = 0x1680 ||
    (0x2000 ≤ n && n ≤ 0x200A) || n = 0x2028 || n = 0x2029 ||
    n = 0x202F || n = 0x205F || n = 0x3000

/-- Worker for `strings.Fields`: `word` is the run of non-space characters
read so far. -/
def goFieldsGo : List Char → List Char → List (List Char)
  | [], word => if word.isEmpty then [] else [word]
  | c :: cs, word =>
    if goIsSpace c then
      if word.isEmpty then goFieldsGo cs []
      else word :: goFieldsGo cs []
    else goFieldsGo cs (word ++ [c])

/-- `strings.Fields`: maximal runs of non-whitespace characters. -/
def goFields (s : List Char) : List (List Char) := goFieldsGo s []

/-- Go `strings.ToLower` restricted to its effect on ASCII letters (the
only characters whose lowercase forms occur in `"bearer"`). -/
def goToLowerChar (c : Char) : Char :=
  if 65 ≤ c.toNat && c.toNat ≤ 90 then Char.ofNat (c.toNat + 32) else c

/-- `strings.ToLower` on a character list. -/
def goToLower (s : List Char) : List Char := s.map goToLowerChar

/-- `ExtractTokenFromHeader`: accept `Bearer <token>` (case-insensitive
scheme, fields split on any whitespace); otherwise accept the bare header
itself when it contains no space character (U+0020) and exactly two `.`;
otherwise return the empty string. -/
def extractTokenFromHeader (authHeader : List Char) : List Char :=
  let parts := goFields authHeader
  if parts.length = 2 && goToLower (parts.getD 0 []) = "bearer".toList then
    parts.getD 1 []
  else if !(authHeader.any (fun c => c = ' ')) && authHeader.count '.' = 2 then
    authHeader
  else
    []

/-! ## The refresh HTTP handler over the whole application state -/

/-- Outcome of the `RefreshToken` handler after a well-formed body. -/
inductive RefreshResult
  | ok (status : Nat) (pair : TokenPair)
  | fail (status : Nat) (code message : String)
deriving DecidableEq, Repr

/-- The state visible to the handlers: the `users` table and the
`refresh_tokens` table. -/
structure AppState where
  users : UserTable
  tokens : Store
deriving DecidableEq, Repr

/-- `AuthHandlers.RefreshToken`: delegates to `AuthService.RefreshTokens`;
the users table is in scope but never consulted. Any error maps to 401
`TOKEN_REFRESH_FAILED`. -/
def refreshHandler (mac : MacFun) (j : JWTService) (st : AppState)
    (refreshTokenString : Option SignedToken) (userAgent ip : String)
    (now : Int) (accessJti refreshJti : String) (recID : Nat) :
    RefreshResult × AppState :=
  match refreshTokens mac j st.tokens refreshTokenString userAgent ip now
      accessJti refreshJti recID with
  | .error _ =>
    (.fail 401 "TOKEN_REFRESH_FAILED" "Invalid or expired refresh token", st)
  | .ok (pair, db') => (.ok 200 pair, { st with tokens := db' })

/-! ## Small helpers and concrete objects used by the theorems -/

/-- Whether an `Except` result is a success. -/
def exceptIsOk : Except ε α → Bool
  | .ok _ => true
  | .error _ => false

instance [DecidableEq ε] [DecidableEq α] : DecidableEq (Except ε α) := fun
  | .ok a, .ok b =>
    if h : a = b then .isTrue (by rw [h])
    else .isFalse (by intro he; cases he; exact h rfl)
  | .ok _, .error _ => .isFalse (by intro h; cases h)
  | .error _, .ok _ => .isFalse (by intro h; cases h)
  | .error e, .error f =>
    if h : e = f then .isTrue (by rw [h])
    else .isFalse (by intro he; cases he; exact h rfl)

/-- A header matches the code's `Bearer <token>` test: splitting on
whitespace yields exactly two fields and the first lowercases to
`bearer`. -/
def bearerShape (h : List Char) : Prop :=
  (goFields h).length = 2 ∧ goToLower ((goFields h).getD 0 []) = "bearer".toList

instance (h : List Char) : Decidable (bearerShape h) := by
  unfold bearerShape; infer_instance

/-- A concrete MAC instance for witnesses. -/
def macZero : MacFun := fun _ _ _ => 0

/-- A concrete JWT service: 15-minute access TTL, 14-day refresh TTL. -/
def jDemo : JWTService :=
  newJWTService "access-secret" "refresh-secret" 900 1209600 "HS256"

/-- A concrete key-derivation instance for witnesses: `keyLen` bytes, each
the sum of all inputs mod 256. -/
def idKeyDemo : IdKeyFun := fun password salt time memory threads keyLen =>
  List.replicate keyLen
    ((password.foldl (· + ·) 0 + salt.foldl (· + ·) 0 + time + memory + threads) % 256)

/-- A concrete hasher (small cost parameters). -/
def hasherDemo : PasswordHasher := newPasswordHasher 1 8 1

/-- A concrete 16-byte salt. -/
def saltDemo : List Nat := List.replicate 16 1

/-- The bytes of the password `pw`. -/
def pwDemo : List Nat := [112, 119]

/-- The encoded hash of `pw` under `hasherDemo`/`idKeyDemo`. -/
def hashDemo : List Char := hasherDemo.hash idKeyDemo pwDemo saltDemo

/-- A deactivated user whose stored hash matches `pw`. -/
def userInactive : User :=
  { id := 9, email := some "bob@example.com", password := some hashDemo
    displayName := some "Bob", photoURL := none, roles := ["user"]
    isActive := false, googleID := none, lastLoginAt := none }

/-- An active user whose stored hash matches `pw`. -/
def userAlice : User :=
  { id := 3, email := some "alice@example.com", password := some hashDemo
    displayName := some "Alice", photoURL := none, roles := ["user"]
    isActive := true, googleID := none, lastLoginAt := none }

/-- A one-user table holding `userAlice`. -/
def usersDemo : UserTable := [userAlice]

/-- The stored refresh token `T0` of the rotation scenario: minted by
`generateTokenPair` at time 0 with jti `jti-r0`. -/
def tokenT0 : SignedToken :=
  (generateTokenPair macZero jDemo 7 "alice@example.com" ["user"] 0
    "jti-a0" "jti-r0").refreshToken

/-- The persisted record of `T0`. -/
def recT0 : RefreshTokenRecord :=
  { id := 1, userID := 7, tokenID := "jti-r0", issuedAt := 0
    expiresAt := 1209600, revoked := false, replacedBy := none
    userAgent := some "ua", ip := some "ip", createdAt := 0, updatedAt := 0 }

/-- A store holding exactly `T0`'s record. -/
def dbDemo : Store := [recT0]

/-- First refresh presenting `T0` (at time 100, new jtis `jti-a1`,
`jti-r1`). -/
def refreshOnce : Except String (TokenPair × Store) :=
  refreshTokens macZero jDemo dbDemo (some tokenT0) "ua" "ip" 100
    "jti-a1" "jti-r1" 2

/-- The store after the first refresh. -/
def dbAfterOnce : Store :=
  match refreshOnce with
  | .ok (_, db) => db
  | .error _ => []

/-- Second refresh presenting the same `T0` again (at time 200). -/
def refreshTwice : Except String (TokenPair × Store) :=
  refreshTokens macZero jDemo dbAfterOnce (some tokenT0) "ua" "ip" 200
    "jti-a2" "jti-r2" 3

/-- A header containing a tab: non-space whitespace, two dots. -/
def tabHeader : List Char := ['x', '.', 'y', '\t', 'z', '.', 'w']

/-- `recT0` with its `revoked` flag set. -/
def recT0Revoked : RefreshTokenRecord := { recT0 with revoked := true }

/-- The token pair returned by the first refresh. -/
def pairOnce : TokenPair :=
  match refreshOnce with
  | .ok (p, _) => p
  | .error _ => generateTokenPair macZero jDemo 0 "" [] 0 "" ""

/-! # Theorems -/

/-- Soundness of `VerifyAccessToken`: success implies the expected signing
method, a signature matching the access secret, in-window time claims,
and the `access` type discriminator, and the returned claims are the
token's. -/
theorem verifyAccessToken_ok_inversion (mac : MacFun) (j : JWTService)
    (t : SignedToken) (now : Int) (c : Claims)
    (h : verifyAccessToken mac j (some t) now = .ok c) :
    c = t.claims ∧ t.method = j.signingMethod ∧
    mac t.method j.accessSecret t.claims = t.sig ∧
    ¬(t.claims.expiresAt < now) ∧ ¬(now < t.claims.notBefore) ∧
    t.claims.type = TokenType.access := by
  unfold verifyAccessToken at h
  dsimp only at h
  split_ifs at h with h1 h2 h3 h4 h5
  cases h
  exact ⟨rfl, not_not.mp h1, not_not.mp h2, h3, h4, not_not.mp h5⟩

/-- Soundness of `VerifyRefreshToken`, symmetric to the access case. -/
theorem verifyRefreshToken_ok_inversion (mac : MacFun) (j : JWTService)
    (t : SignedToken) (now : Int) (c : Claims)
    (h : verifyRefreshToken mac j (some t) now = .ok c) :
    c = t.claims ∧ t.method = j.signingMethod ∧
    mac t.method j.refreshSecret t.claims = t.sig ∧
    ¬(t.claims.expiresAt < now) ∧ ¬(now < t.claims.notBefore) ∧
    t.claims.type = TokenType.refresh := by
  unfold verifyRefreshToken at h
  dsimp only at h
  split_ifs at h with h1 h2 h3 h4 h5
  cases h
  exact ⟨rfl, not_not.mp h1, not_not.mp h2, h3, h4, not_not.mp h5⟩

/-- C5: for every pair returned by `GenerateTokenPair`, the refresh token
fails `VerifyAccessToken` and the access token fails `VerifyRefreshToken`
(at any verification time); and each verifier accepts only tokens whose
type discriminator matches its kind and whose signature is the MAC under
that kind's secret. -/
theorem token_type_isolation (mac : MacFun) (j : JWTService) (userID : Nat)
    (email : String) (roles : List String) (now : Int)
    (accessJti refreshJti : String) (now2 : Int) :
    exceptIsOk (verifyAccessToken mac j
      (some (generateTokenPair mac j userID email roles now accessJti
        refreshJti).refreshToken) now2) = false ∧
    exceptIsOk (verifyRefreshToken mac j
      (some (generateTokenPair mac j userID email roles now accessJti
        refreshJti).accessToken) now2) = false ∧
    (∀ t c, verifyAccessToken mac j (some t) now2 = .ok c →
      t.claims.type = TokenType.access ∧ t.method = j.signingMethod ∧
      mac t.method j.accessSecret t.claims = t.sig) ∧
    (∀ t c, verifyRefreshToken mac j (some t) now2 = .ok c →
      t.claims.type = TokenType.refresh ∧ t.method = j.signingMethod ∧
      mac t.method j.refreshSecret t.claims = t.sig) := by
  refine ⟨?_, ?_, ?_, ?_⟩
  · unfold verifyAccessToken generateTokenPair
    dsimp only
    split_ifs with h1 h2 h3 h4 h5 <;> simp_all [exceptIsOk]
  · unfold verifyRefreshToken generateTokenPair
    dsimp only
    split_ifs with h1 h2 h3 h4 h5 <;> simp_all [exceptIsOk]
  · intro t c h
    obtain ⟨-, hm, hs, -, -, ht⟩ :=
      verifyAccessToken_ok_inversion mac j t now2 c h
    exact ⟨ht, hm, hs⟩
  · intro t c h
    obtain ⟨-, hm, hs, -, -, ht⟩ :=
      verifyRefreshToken_ok_inversion mac j t now2 c h
    exact ⟨ht, hm, hs⟩

/-- C5 witness: concrete instantiation of the isolation theorem. -/
theorem token_type_isolation_witness :
    exceptIsOk (verifyAccessToken macZero jDemo (some tokenT0) 100) = false :=
  (token_type_isolation macZero jDemo 7 "alice@example.com" ["user"] 0
    "jti-a0" "jti-r0" 100).1

/-- C8: the logout handler reports the same 200 success body for every
presented refresh token — valid, revoked, expired, malformed (`none`) or
without a stored record alike. -/
theorem logout_always_reports_success (mac : MacFun) (j : JWTService)
    (db : Store) (tok : Option SignedToken) (now : Int) :
    (logoutHandler mac j db tok now).1 =
      { status := 200, message := "Logged out successfully" } := by
  unfold logoutHandler
  cases revokeToken mac j db tok now <;> rfl

/-- C1: the rotation scenario on concrete data. The first refresh with T0
succeeds, but the store afterwards still holds T0's record with
`revoked = false` and `replaced_by = null`, and a second refresh
presenting T0 succeeds as well (the in-memory `RevokeAndReplace` is never
persisted); the successor token T1 also refreshes successfully. -/
theorem rotation_does_not_revoke_old_record :
    exceptIsOk refreshOnce = true ∧
    repoGetByTokenID dbAfterOnce "jti-r0" = some recT0 ∧
    recT0.revoked = false ∧
    recT0.replacedBy = none ∧
    exceptIsOk refreshTwice = true ∧
    exceptIsOk (refreshTokens macZero jDemo dbAfterOnce
      (some pairOnce.refreshToken) "ua" "ip" 300 "jti-a3" "jti-r3" 4)
      = true := by
  decide

/-- C10: a successful refresh copies subject, email and roles of both new
tokens verbatim from the presented refresh token's claims, and the refresh
handler's outcome and resulting token store are independent of the users
table. -/
theorem refresh_copies_claims_and_ignores_users (mac : MacFun)
    (j : JWTService) (db : Store) (t : SignedToken) (userAgent ip : String)
    (now : Int) (accessJti refreshJti : String) (recID : Nat)
    (pair : TokenPair) (db' : Store)
    (h : refreshTokens mac j db (some t) userAgent ip now accessJti
      refreshJti recID = .ok (pair, db')) :
    (pair.accessToken.claims.userID = t.claims.userID ∧
     pair.accessToken.claims.email = t.claims.email ∧
     pair.accessToken.claims.roles = t.claims.roles ∧
     pair.refreshToken.claims.userID = t.claims.userID ∧
     pair.refreshToken.claims.email = t.claims.email ∧
     pair.refreshToken.claims.roles = t.claims.roles) ∧
    (∀ users users' : UserTable,
      (refreshHandler mac j ⟨users, db⟩ (some t) userAgent ip now accessJti
        refreshJti recID).1 =
      (refreshHandler mac j ⟨users', db⟩ (some t) userAgent ip now accessJti
        refreshJti recID).1 ∧
      (refreshHandler mac j ⟨users, db⟩ (some t) userAgent ip now accessJti
        refreshJti recID).2.tokens =
      (refreshHandler mac j ⟨users', db⟩ (some t) userAgent ip now accessJti
        refreshJti recID).2.tokens) := by
  constructor
  · unfold refreshTokens at h
    dsimp only at h
    split at h
    · cases h
    next refreshClaims hv =>
      obtain ⟨hrc, -, -, -, -, -⟩ :=
        verifyRefreshToken_ok_inversion mac j t now refreshClaims hv
      subst hrc
      split at h
      · cases h
      next storedToken hget =>
        split at h
        · cases h
        · split at h
          · cases h
          next newRC hv2 =>
            split at h
            · cases h
            next db2 hcr =>
              cases h
              exact ⟨rfl, rfl, rfl, rfl, rfl, rfl⟩
  · intro users users'
    cases hr : refreshTokens mac j db (some t) userAgent ip now accessJti
        refreshJti recID <;>
      simp [refreshHandler, hr]

/-- C10 witness: the claims of the concrete first-refresh pair coincide
with those of the presented token T0. -/
theorem refresh_copies_claims_witness :
    pairOnce.accessToken.claims.userID = tokenT0.claims.userID :=
  (refresh_copies_claims_and_ignores_users macZero jDemo dbDemo tokenT0
    "ua" "ip" 100 "jti-a1" "jti-r1" 2 pairOnce dbAfterOnce (by decide)).1.1

/-- With pairwise-distinct `token_id`s (the unique index), two members
with the same `token_id` are the same record. -/
theorem mem_eq_of_pairwise_tokenID {db : Store}
    (huniq : db.Pairwise (fun a b => a.tokenID ≠ b.tokenID))
    {a b : RefreshTokenRecord} (ha : a ∈ db) (hb : b ∈ db)
    (hab : a.tokenID = b.tokenID) : a = b := by
  induction db with
  | nil => cases ha
  | cons x xs ih =>
    rw [List.pairwise_cons] at huniq
    rcases List.mem_cons.mp ha with ha' | ha' <;>
      rcases List.mem_cons.mp hb with hb' | hb'
    · rw [ha', hb']
    · exact absurd (ha' ▸ hab) (huniq.1 b hb')
    · exact absurd (hb' ▸ hab.symm) (huniq.1 a ha')
    · exact ih huniq.2 ha' hb'

/-- A successful `Create` appends the record and certifies that no stored
record already carried its `token_id`. -/
theorem repoCreate_ok {db : Store} {t : RefreshTokenRecord} {db' : Store}
    (h : repoCreate db t = .ok db') :
    db' = db ++ [t] ∧ db.any (fun r => r.tokenID = t.tokenID) = false := by
  unfold repoCreate at h
  split_ifs at h with hdup
  cases h
  exact ⟨rfl, by simpa using hdup⟩

/-- A successful `RevokeToken` is exactly a `RevokeByTokenID` on some id. -/
theorem revokeToken_ok_shape {mac : MacFun} {j : JWTService} {db : Store}
    {tok : Option SignedToken} {now : Int} {db' : Store}
    (h : revokeToken mac j db tok now = .ok db') :
    ∃ jti, db' = repoRevokeByTokenID db jti now := by
  unfold revokeToken at h
  split at h
  · cases h
  · cases h
    exact ⟨_, rfl⟩

/-- A successful `RefreshTokens` only appends one fresh unrevoked record
to the table. -/
theorem refreshTokens_ok_shape {mac : MacFun} {j : JWTService} {db : Store}
    {tok : Option SignedToken} {ua ip : String} {now : Int}
    {aJti rJti : String} {recID : Nat} {pair : TokenPair} {db' : Store}
    (h : refreshTokens mac j db tok ua ip now aJti rJti recID
      = .ok (pair, db')) :
    ∃ rec : RefreshTokenRecord, db' = db ++ [rec] ∧
      db.any (fun r => r.tokenID = rec.tokenID) = false := by
  unfold refreshTokens at h
  dsimp only at h
  split at h
  · cases h
  next refreshClaims hv =>
    split at h
    · cases h
    next storedToken hget =>
      split at h
      · cases h
      · split at h
        · cases h
        next newRC hv2 =>
          split at h
          · cases h
          next db2 hcr =>
            cases h
            obtain ⟨hshape, hany⟩ := repoCreate_ok hcr
            exact ⟨_, hshape, hany⟩

/-- Appending a record with a fresh `token_id` preserves both the
revoked-flag monotonicity and the uniqueness invariant. -/
theorem monotone_append {db : Store} {t : RefreshTokenRecord}
    (huniq : db.Pairwise (fun a b => a.tokenID ≠ b.tokenID))
    (hany : db.any (fun r => r.tokenID = t.tokenID) = false) :
    (∀ r ∈ db, r.revoked = true →
      ∀ r' ∈ db ++ [t], r'.tokenID = r.tokenID → r'.revoked = true) ∧
    (db ++ [t]).Pairwise (fun a b => a.tokenID ≠ b.tokenID) := by
  have hfresh : ∀ x ∈ db, ¬(x.tokenID = t.tokenID) := by
    simpa using hany
  constructor
  · intro r hr hrev r' hr' htid
    rcases List.mem_append.mp hr' with h' | h'
    · exact (mem_eq_of_pairwise_tokenID huniq h' hr htid) ▸ hrev
    · have ht : r' = t := by simpa using h'
      exact absurd (htid ▸ ht ▸ rfl) (hfresh r hr)
  · rw [List.pairwise_append]
    refine ⟨huniq, List.pairwise_singleton _ _, ?_⟩
    intro a ha b hb
    have hb' : b = t := by simpa using hb
    exact hb' ▸ hfresh a ha

/-- Mapping a function that keeps `token_id` and never clears the revoked
flag preserves both invariants. -/
theorem monotone_map {db : Store} {f : RefreshTokenRecord → RefreshTokenRecord}
    (huniq : db.Pairwise (fun a b => a.tokenID ≠ b.tokenID))
    (htid : ∀ x, (f x).tokenID = x.tokenID)
    (hrev : ∀ x, x.revoked = true → (f x).revoked = true) :
    (∀ r ∈ db, r.revoked = true →
      ∀ r' ∈ db.map f, r'.tokenID = r.tokenID → r'.revoked = true) ∧
    (db.map f).Pairwise (fun a b => a.tokenID ≠ b.tokenID) := by
  constructor
  · intro r hr hrev' r' hr' htid'
    obtain ⟨x, hx, hfx⟩ := List.mem_map.mp hr'
    have hxr : x = r :=
      mem_eq_of_pairwise_tokenID huniq hx hr (by rw [← htid x, hfx, htid'])
    exact hfx ▸ hxr ▸ hrev x (hxr ▸ hrev')
  · exact List.Pairwise.map f
      (fun a b hab => by rw [htid, htid]; exact hab) huniq

/-- The two invariants for an unchanged table. -/
theorem monotone_refl {db : Store}
    (huniq : db.Pairwise (fun a b => a.tokenID ≠ b.tokenID)) :
    (∀ r ∈ db, r.revoked = true →
      ∀ r' ∈ db, r'.tokenID = r.tokenID → r'.revoked = true) ∧
    db.Pairwise (fun a b => a.tokenID ≠ b.tokenID) := by
  refine ⟨?_, huniq⟩
  intro r hr hrev r' hr' htid
  exact (mem_eq_of_pairwise_tokenID huniq hr' hr htid) ▸ hrev

/-- C9: on a table whose `token_id`s are unique (the unique-index
invariant), no store or auth-service operation ever clears a record's
revoked flag: any record in the post-state carrying the `token_id` of a
revoked pre-state record is itself revoked; and uniqueness is preserved,
so the property holds along every execution. -/
theorem revoked_flag_is_monotone (mac : MacFun) (j : JWTService) (now : Int)
    (op : StoreOp) (db : Store)
    (huniq : db.Pairwise (fun a b => a.tokenID ≠ b.tokenID)) :
    (∀ r ∈ db, r.revoked = true →
      ∀ r' ∈ storeAfter mac j now op db, r'.tokenID = r.tokenID →
        r'.revoked = true) ∧
    (storeAfter mac j now op db).Pairwise
      (fun a b => a.tokenID ≠ b.tokenID) := by
  cases op with
  | create t =>
    dsimp only [storeAfter]
    cases hc : repoCreate db t with
    | error e => exact monotone_refl huniq
    | ok db' =>
      obtain ⟨hshape, hany⟩ := repoCreate_ok hc
      exact hshape ▸ monotone_append huniq hany
  | getByTokenID jti => exact monotone_refl huniq
  | revokeByTokenID jti =>
    dsimp only [storeAfter, repoRevokeByTokenID]
    refine monotone_map huniq ?_ ?_ <;> intro x <;> split <;> simp
  | revokeAllForUser uid =>
    dsimp only [storeAfter, repoRevokeAllUserTokens]
    refine monotone_map huniq ?_ ?_ <;> intro x <;> split <;> simp
  | purgeExpired =>
    dsimp only [storeAfter, repoCleanExpiredTokens]
    constructor
    · intro r hr hrev r' hr' htid
      have hr'' : r' ∈ db := List.mem_of_mem_filter hr'
      exact (mem_eq_of_pairwise_tokenID huniq hr'' hr htid) ▸ hrev
    · exact List.Pairwise.sublist (List.filter_sublist db) huniq
  | refresh tok ua ip aJti rJti recID =>
    dsimp only [storeAfter]
    cases hrf : refreshTokens mac j db tok ua ip now aJti rJti recID with
    | error e => exact monotone_refl huniq
    | ok pr =>
      obtain ⟨pair, db'⟩ := pr
      obtain ⟨rec, hshape, hany⟩ := refreshTokens_ok_shape hrf
      exact hshape ▸ monotone_append huniq hany
  | logout tok =>
    dsimp only [storeAfter]
    cases hrv : revokeToken mac j db tok now with
    | error e => exact monotone_refl huniq
    | ok db' =>
      obtain ⟨jti, hshape⟩ := revokeToken_ok_shape hrv
      subst hshape
      unfold repoRevokeByTokenID
      refine monotone_map huniq ?_ ?_ <;> intro x <;> split <;> simp

/-- C9 witness: a concrete revoked record stays revoked across a logout
presenting its own token. -/
theorem revoked_flag_is_monotone_witness :
    (({ recT0Revoked with updatedAt := 5 } : RefreshTokenRecord)).revoked
      = true :=
  (revoked_flag_is_monotone macZero jDemo 5 (.logout (some tokenT0))
    [recT0Revoked] (by decide)).1 recT0Revoked (by decide) (by decide)
    { recT0Revoked with updatedAt := 5 } (by decide) (by decide)

/-! ### Lemmas about the embedded codecs (base64, decimal, split) -/

/-- Decoding inverts the alphabet mapping on six-bit values. -/
theorem b64Val_b64Char : ∀ n, n < 64 → b64Val (b64Char n) = some n := by
  decide

/-- Unpadded base64 decoding inverts encoding on byte lists. -/
theorem decodeB64_encodeB64 :
    ∀ bs : List Nat, (∀ b ∈ bs, b < 256) →
      decodeB64 (encodeB64 bs) = some bs
  | [], _ => rfl
  | [a], h => by
    have ha : a < 256 := h a (by simp)
    have h1 : a / 4 < 64 := by omega
    have h2 : a % 4 * 16 < 64 := by omega
    simp [encodeB64, decodeB64, b64Val_b64Char _ h1, b64Val_b64Char _ h2]
    omega
  | [a, b], h => by
    have ha : a < 256 := h a (by simp)
    have hb : b < 256 := h b (by simp)
    have h1 : a / 4 < 64 := by omega
    have h2 : a % 4 * 16 + b / 16 < 64 := by omega
    have h3 : b % 16 * 4 < 64 := by omega
    simp [encodeB64, decodeB64, b64Val_b64Char _ h1, b64Val_b64Char _ h2,
      b64Val_b64Char _ h3]
    omega
  | a :: b :: c :: rest, h => by
    have ha : a < 256 := h a (by simp)
    have hb : b < 256 := h b (by simp)
    have hc : c < 256 := h c (by simp)
    have h1 : a / 4 < 64 := by omega
    have h2 : a % 4 * 16 + b / 16 < 64 := by omega
    have h3 : b % 16 * 4 + c / 64 < 64 := by omega
    have h4 : c % 64 < 64 := by omega
    have hrec := decodeB64_encodeB64 rest (fun x hx => h x (by simp [hx]))
    simp [encodeB64, decodeB64, b64Val_b64Char _ h1, b64Val_b64Char _ h2,
      b64Val_b64Char _ h3, b64Val_b64Char _ h4, hrec]
    omega

/-- Digit characters print and scan consistently. -/
theorem digitChar_spec :
    ∀ k, k < 10 → goIsDigit (digitChar k) = true ∧
      (digitChar k).toNat - 48 = k := by
  decide

/-- Every character the encoder emits is in the base64 alphabet. -/
theorem b64Char_mem_alphabet (n : Nat) : b64Char n ∈ b64Alphabet := by
  unfold b64Char List.getD
  cases hg : b64Alphabet.get? n with
  | none => decide
  | some c =>
    rw [Option.getD_some]
    exact List.get?_mem hg

/-- Characters of an encoded base64 string lie in the alphabet. -/
theorem mem_encodeB64 :
    ∀ (bs : List Nat) (c : Char), c ∈ encodeB64 bs → c ∈ b64Alphabet
  | [], _, hc => by cases hc
  | [a], c, hc => by
    simp only [encodeB64, List.mem_cons, List.not_mem_nil, or_false] at hc
    rcases hc with h | h <;> exact h ▸ b64Char_mem_alphabet _
  | [a, b], c, hc => by
    simp only [encodeB64, List.mem_cons, List.not_mem_nil, or_false] at hc
    rcases hc with h | h | h <;> exact h ▸ b64Char_mem_alphabet _
  | a :: b :: d :: rest, c, hc => by
    simp only [encodeB64, List.mem_cons] at hc
    rcases hc with h | h | h | h | h
    · exact h ▸ b64Char_mem_alphabet _
    · exact h ▸ b64Char_mem_alphabet _
    · exact h ▸ b64Char_mem_alphabet _
    · exact h ▸ b64Char_mem_alphabet _
    · exact mem_encodeB64 rest c h

/-- No character of an encoded base64 string is the `$` delimiter. -/
theorem encodeB64_ne_dollar (bs : List Nat) (c : Char)
    (hc : c ∈ encodeB64 bs) : c ≠ '$' := by
  intro he
  have := mem_encodeB64 bs c hc
  rw [he] at this
  exact absurd this (by decide)

/-- Decimal printing emits only digit characters. -/
theorem natToCharsCore_digits :
    ∀ (fuel n : Nat), ∀ c ∈ natToCharsCore fuel n, goIsDigit c = true := by
  intro fuel
  induction fuel with
  | zero => intro n c hc; cases hc
  | succ fuel ih =>
    intro n c hc
    unfold natToCharsCore at hc
    split at hc
    · have hcd : c = digitChar n := by simpa using hc
      subst hcd
      exact (digitChar_spec n (by assumption)).1
    · rcases List.mem_append.mp hc with hmem | hmem
      · exact ih _ c hmem
      · have hcd : c = digitChar (n % 10) := by simpa using hmem
        subst hcd
        exact (digitChar_spec (n % 10) (by omega)).1

/-- Decimal printing never returns the empty string. -/
theorem natToCharsCore_ne_nil (fuel n : Nat) :
    natToCharsCore (fuel + 1) n ≠ [] := by
  unfold natToCharsCore
  split <;> simp

/-- Digits are not `$`. -/
theorem goIsDigit_ne_dollar (c : Char) (h : goIsDigit c = true) : c ≠ '$' := by
  intro he
  rw [he] at h
  exact absurd h (by decide)

/-- `parseDigits` runs through a block of digits and continues. -/
theorem parseDigits_append :
    ∀ (xs : List Char) (acc : Nat) (ys : List Char),
      (∀ c ∈ xs, goIsDigit c = true) →
      parseDigits (xs ++ ys) acc = parseDigits ys (parseDigits xs acc).1
  | [], acc, ys, _ => by simp [parseDigits]
  | x :: xs, acc, ys, h => by
    have hx : goIsDigit x = true := h x (by simp)
    simp only [List.cons_append, parseDigits, hx, if_true]
    exact parseDigits_append xs _ ys (fun c hc => h c (by simp [hc]))

/-- `parseDigits` stops at a non-digit (or the end). -/
theorem parseDigits_stop (ys : List Char) (n : Nat)
    (h : ∀ c, ys.head? = some c → goIsDigit c = false) :
    parseDigits ys n = (n, ys) := by
  cases ys with
  | nil => rfl
  | cons c cs =>
    have := h c rfl
    simp [parseDigits, this]

/-- Value of a printed number under `parseDigits`. -/
theorem parseDigits_natToCharsCore :
    ∀ (fuel n acc : Nat), n < fuel →
      parseDigits (natToCharsCore fuel n) acc =
        (acc * 10 ^ (natToCharsCore fuel n).length + n, []) := by
  intro fuel
  induction fuel with
  | zero => intro n acc h; omega
  | succ fuel ih =>
    intro n acc h
    by_cases h10 : n < 10
    · have hval : (digitChar n).toNat - 48 = n := by
        interval_cases n <;> decide
      have hdig : goIsDigit (digitChar n) = true := by
        interval_cases n <;> decide
      simp [natToCharsCore, h10, parseDigits, hdig, hval]
    · have hrec : n / 10 < fuel := by omega
      have hxs := ih (n / 10) acc hrec
      have hdigs := natToCharsCore_digits fuel (n / 10)
      have hvald : (digitChar (n % 10)).toNat - 48 = n % 10 :=
        (digitChar_spec (n % 10) (by omega)).2
      have hdigd : goIsDigit (digitChar (n % 10)) = true :=
        (digitChar_spec (n % 10) (by omega)).1
      rw [natToCharsCore]
      simp only [h10, if_false]
      rw [parseDigits_append _ _ _ hdigs, hxs]
      simp only [parseDigits, hdigd, if_true, hvald, List.length_append,
        List.length_cons, List.length_nil, Nat.zero_add, Nat.add_zero,
        Prod.mk.injEq, and_true]
      rw [pow_succ]
      generalize (10 : Nat) ^ (natToCharsCore fuel (n / 10)).length = A
      have hmod : n / 10 * 10 + n % 10 = n := by omega
      calc (acc * A + n / 10) * 10 + n % 10
          = acc * (A * 10) + (n / 10 * 10 + n % 10) := by ring
        _ = acc * (A * 10) + n := by rw [hmod]

/-- Scanning a printed number followed by non-digit input returns the
number and the rest. -/
theorem scanNat_natToChars (n : Nat) (ys : List Char)
    (h : ∀ c, ys.head? = some c → goIsDigit c = false) :
    scanNat (natToChars n ++ ys) = some (n, ys) := by
  have hparse : parseDigits (natToCharsCore (n + 1) n ++ ys) 0 = (n, ys) := by
    rw [parseDigits_append _ _ _ (natToCharsCore_digits (n + 1) n),
      parseDigits_natToCharsCore (n + 1) n 0 (by omega)]
    simpa using parseDigits_stop ys n h
  unfold natToChars
  cases hx : natToCharsCore (n + 1) n with
  | nil => exact absurd hx (natToCharsCore_ne_nil n n)
  | cons d ds =>
    have hd : goIsDigit d = true :=
      natToCharsCore_digits (n + 1) n d (by rw [hx]; simp)
    rw [hx] at hparse
    simp only [List.cons_append] at hparse ⊢
    simp [scanNat, hd, hparse]

/-- `strings.Split` on a separator-free string is the single piece. -/
theorem splitChar_of_not_mem (sep : Char) :
    ∀ xs : List Char, (∀ c ∈ xs, c ≠ sep) → splitChar sep xs = [xs]
  | [], _ => rfl
  | x :: xs, h => by
    have hx : x ≠ sep := h x (by simp)
    have hrec := splitChar_of_not_mem sep xs (fun c hc => h c (by simp [hc]))
    simp [splitChar, hx, hrec]

/-- `strings.Split` peels one separator-free piece at a separator. -/
theorem splitChar_append (sep : Char) :
    ∀ xs ys : List Char, (∀ c ∈ xs, c ≠ sep) →
      splitChar sep (xs ++ sep :: ys) = xs :: splitChar sep ys
  | [], ys, _ => by simp [splitChar]
  | x :: xs, ys, h => by
    have hx : x ≠ sep := h x (by simp)
    have hrec := splitChar_append sep xs ys (fun c hc => h c (by simp [hc]))
    simp [splitChar, hx, hrec]

/-- Digits, viewed through `natToChars`, are never the `$` delimiter. -/
theorem natToChars_ne_dollar (n : Nat) (c : Char) (hc : c ∈ natToChars n) :
    c ≠ '$' :=
  goIsDigit_ne_dollar c (natToCharsCore_digits (n + 1) n c hc)

/-- Scanning the whole `m=…,t=…,p=…` parameter field recovers the embedded
parameters when they are in the ranges of `uint32`/`uint32`/`uint8`. -/
theorem scanParamsField_print (m t th : Nat)
    (hm : m < 2 ^ 32) (ht : t < 2 ^ 32) (hth : th < 2 ^ 8) :
    scanParamsField ('m' :: '=' :: (natToChars m ++
      ',' :: 't' :: '=' :: (natToChars t ++
      ',' :: 'p' :: '=' :: natToChars th))) = some (m, t, th) := by
  have hmem : scanNat (natToChars m ++
      ',' :: 't' :: '=' :: (natToChars t ++ ',' :: 'p' :: '=' :: natToChars th))
      = some (m, ',' :: 't' :: '=' ::
        (natToChars t ++ ',' :: 'p' :: '=' :: natToChars th)) :=
    scanNat_natToChars m _ (by intro c hc; cases hc; decide)
  have htime : scanNat (natToChars t ++ ',' :: 'p' :: '=' :: natToChars th)
      = some (t, ',' :: 'p' :: '=' :: natToChars th) :=
    scanNat_natToChars t _ (by intro c hc; cases hc; decide)
  have hthr : scanNat (natToChars th) = some (th, []) := by
    have := scanNat_natToChars th [] (by intro c hc; cases hc)
    simpa using this
  unfold scanParamsField
  simp only [expectChar, if_pos, Option.bind_eq_bind, Option.some_bind,
    reduceIte]
  rw [hmem]
  simp only [Option.some_bind]
  rw [if_neg (by omega)]
  simp only [expectChar, reduceIte, Option.some_bind]
  rw [htime]
  simp only [Option.some_bind]
  rw [if_neg (by omega)]
  simp only [expectChar, reduceIte, Option.some_bind]
  rw [hthr]
  simp only [Option.some_bind]
  rw [if_neg (by omega)]

/-- Verification of a hash evaluates to the comparison of the stored key
against the key re-derived with the parameters embedded in the string —
the verifying hasher's own parameters play no role. -/
theorem matches_hash_eval (q p : PasswordHasher) (idKey : IdKeyFun)
    (pwd pwd2 salt : List Nat)
    (hm : p.memory < 2 ^ 32) (ht : p.time < 2 ^ 32) (hth : p.threads < 2 ^ 8)
    (hsalt : ∀ b ∈ salt, b < 256)
    (hkey : ∀ b ∈ idKey pwd salt p.time p.memory p.threads p.keyLen, b < 256)
    (hlen : (idKey pwd salt p.time p.memory p.threads p.keyLen).length
      = p.keyLen) :
    q.matches idKey pwd2 (p.hash idKey pwd salt) =
      .ok (decide (idKey pwd salt p.time p.memory p.threads p.keyLen =
        idKey pwd2 salt p.time p.memory p.threads p.keyLen)) := by
  have hsplit : splitChar '$' (p.hash idKey pwd salt) =
      [[], "argon2id".toList, 'v' :: '=' :: natToChars argon2Version,
       'm' :: '=' :: (natToChars p.memory ++
         ',' :: 't' :: '=' :: (natToChars p.time ++
         ',' :: 'p' :: '=' :: natToChars p.threads)),
       encodeB64 salt,
       encodeB64 (idKey pwd salt p.time p.memory p.threads p.keyLen)] := by
    unfold PasswordHasher.hash
    dsimp only
    rw [show ∀ X, splitChar '$' ('$' :: X) = [] :: splitChar '$' X from
      fun X => by simp [splitChar]]
    rw [splitChar_append '$' ("argon2id".toList) _ (by decide)]
    rw [splitChar_append '$' ('v' :: '=' :: natToChars argon2Version) _
      (by decide)]
    rw [splitChar_append '$' ('m' :: '=' :: (natToChars p.memory ++
      ',' :: 't' :: '=' :: (natToChars p.time ++
      ',' :: 'p' :: '=' :: natToChars p.threads))) _ ?_]
    rw [splitChar_append '$' (encodeB64 salt) _ (encodeB64_ne_dollar salt)]
    rw [splitChar_of_not_mem '$' _ (encodeB64_ne_dollar _)]
    · intro c hc
      simp only [List.mem_cons, List.mem_append] at hc
      rcases hc with h | h | h | h
      · exact h ▸ (by decide)
      · exact h ▸ (by decide)
      · exact natToChars_ne_dollar _ c h
      · rcases h with h | h | h | h
        · exact h ▸ (by decide)
        · exact h ▸ (by decide)
        · exact h ▸ (by decide)
        · rcases h with h | h
          · exact natToChars_ne_dollar _ c h
          · rcases h with h | h | h | h
            · exact h ▸ (by decide)
            · exact h ▸ (by decide)
            · exact h ▸ (by decide)
            · exact natToChars_ne_dollar _ c h
  unfold PasswordHasher.matches
  rw [hsplit]
  dsimp only
  rw [show scanVersionField ('v' :: '=' :: natToChars argon2Version)
    = some 19 from by decide]
  dsimp only
  rw [if_neg (by decide)]
  rw [scanParamsField_print p.memory p.time p.threads hm ht hth]
  dsimp only
  rw [decodeB64_encodeB64 salt hsalt]
  dsimp only
  rw [decodeB64_encodeB64 _ hkey]
  dsimp only
  rw [hlen]
  by_cases heq : idKey pwd salt p.time p.memory p.threads p.keyLen =
      idKey pwd2 salt p.time p.memory p.threads p.keyLen <;>
    simp [heq]

/-- C3: with a fresh 16-byte salt, a password verifies against its own
hash; a distinct password fails against that hash provided the two
Argon2id derivations do not collide. (Byte-ranges, the derived key's
length, and collision-freedom are properties of `argon2.IDKey`, stated as
hypotheses on the abstract `idKey`.) -/
theorem password_hash_roundtrip (idKey : IdKeyFun) (time memory threads : Nat)
    (p1 p2 salt : List Nat)
    (hm : memory < 2 ^ 32) (ht : time < 2 ^ 32) (hth : threads < 2 ^ 8)
    (hslen : salt.length = 16) (hsalt : ∀ b ∈ salt, b < 256)
    (hkey : ∀ b ∈ idKey p1 salt time memory threads 32, b < 256)
    (hlen : (idKey p1 salt time memory threads 32).length = 32)
    (hne : p1 ≠ p2)
    (hcol : idKey p1 salt time memory threads 32 ≠
      idKey p2 salt time memory threads 32) :
    (newPasswordHasher time memory threads).matches idKey p1
      ((newPasswordHasher time memory threads).hash idKey p1 salt)
      = .ok true ∧
    (newPasswordHasher time memory threads).matches idKey p2
      ((newPasswordHasher time memory threads).hash idKey p1 salt)
      = .ok false := by
  constructor
  · rw [matches_hash_eval _ _ idKey p1 p1 salt hm ht hth hsalt hkey hlen]
    simp
  · rw [matches_hash_eval _ _ idKey p1 p2 salt hm ht hth hsalt hkey hlen]
    simp only [Except.ok.injEq, decide_eq_false_iff_not]
    exact hcol

/-- C3 witness: the round trip on concrete data (`pw` against its hash,
and the distinct password `qw` against it). -/
theorem password_hash_roundtrip_witness :
    hasherDemo.matches idKeyDemo pwDemo
      (hasherDemo.hash idKeyDemo pwDemo saltDemo) = .ok true ∧
    hasherDemo.matches idKeyDemo [113, 119]
      (hasherDemo.hash idKeyDemo pwDemo saltDemo) = .ok false :=
  password_hash_roundtrip idKeyDemo 1 8 1 pwDemo [113, 119] saltDemo
    (by decide) (by decide) (by decide) (by decide) (by decide) (by decide)
    (by decide) (by decide) (by decide)

/-- C4: verification re-derives with the parameters embedded in the
encoded hash, so a hasher with different cost parameters still verifies a
hash produced under the original parameters. -/
theorem password_hash_self_describing (idKey : IdKeyFun)
    (tA mA thA tB mB thB : Nat) (pwd salt : List Nat)
    (hm : mA < 2 ^ 32) (ht : tA < 2 ^ 32) (hth : thA < 2 ^ 8)
    (hsalt : ∀ b ∈ salt, b < 256)
    (hkey : ∀ b ∈ idKey pwd salt tA mA thA 32, b < 256)
    (hlen : (idKey pwd salt tA mA thA 32).length = 32) :
    (newPasswordHasher tB mB thB).matches idKey pwd
      ((newPasswordHasher tA mA thA).hash idKey pwd salt) = .ok true := by
  rw [matches_hash_eval _ _ idKey pwd pwd salt hm ht hth hsalt hkey hlen]
  simp

/-- C4 witness: a hasher with different cost parameters verifies the
concrete hash. -/
theorem password_hash_self_describing_witness :
    (newPasswordHasher 2 16 2).matches idKeyDemo pwDemo
      (hasherDemo.hash idKeyDemo pwDemo saltDemo) = .ok true :=
  password_hash_self_describing idKeyDemo 1 8 1 2 16 2 pwDemo saltDemo
    (by decide) (by decide) (by decide) (by decide) (by decide) (by decide)

/-- C2 counterexample: a deactivated user presenting the correct password
authenticates successfully — `AuthenticateUser` never reads `IsActive`,
contradicting the claim that such a login fails with
`AuthenticationFailed`. -/
theorem inactive_user_login_succeeds_cex :
    userInactive.isActive = false ∧
    (authenticateUser idKeyDemo hasherDemo [userInactive]
      "bob@example.com" pwDemo 50).1
      = .ok { userInactive with lastLoginAt := some 50 } := by
  decide

/-- C2 (amended): authentication ignores the active flag: a looked-up user
whose stored hash matches the presented password authenticates
successfully even with `IsActive = false`; `AuthenticationFailed` arises
only from an absent user, a missing hash, or a failed match. -/
theorem authenticate_ignores_active_flag (idKey : IdKeyFun)
    (hasher : PasswordHasher) (tbl : UserTable) (email : String)
    (password : List Nat) (now : Int) (user : User) (storedHash : List Char)
    (hfind : repoGetUserByEmail tbl email = some user)
    (hinact : user.isActive = false)
    (hpw : user.password = some storedHash)
    (hmatch : hasher.matches idKey password storedHash = .ok true) :
    (authenticateUser idKey hasher tbl email password now).1 =
      .ok { user with lastLoginAt := some now } := by
  unfold authenticateUser
  rw [hfind]
  dsimp only
  rw [hpw]
  dsimp only
  rw [hmatch]

/-- C2 witness for the amended statement, on the concrete inactive user. -/
theorem authenticate_ignores_active_flag_witness :
    (authenticateUser idKeyDemo hasherDemo [userInactive]
      "bob@example.com" pwDemo 50).1
      = .ok { userInactive with lastLoginAt := some 50 } :=
  authenticate_ignores_active_flag idKeyDemo hasherDemo [userInactive]
    "bob@example.com" pwDemo 50 userInactive hashDemo (by decide) (by decide)
    (by decide) (by decide)

/-- C6: a login with a wrong password for an existing email and a login
with a non-existent email produce the identical handler outcome (the same
401 `AUTHENTICATION_FAILED` body, no tokens, tables unchanged), and the
same `AuthenticateUser` error value. -/
theorem login_failures_indistinguishable (idKey : IdKeyFun)
    (hasher : PasswordHasher) (mac : MacFun) (j : JWTService)
    (users : UserTable) (db : Store) (e1 e2 : String) (pw1 pw2 : List Nat)
    (ua ip : String) (now : Int) (aJti rJti : String) (recID : Nat)
    (u : User) (storedHash : List Char)
    (hfind : repoGetUserByEmail users e1 = some u)
    (hpw : u.password = some storedHash)
    (hwrong : hasher.matches idKey pw1 storedHash = .ok false)
    (habsent : repoGetUserByEmail users e2 = none) :
    loginHandler idKey hasher mac j users db e1 pw1 ua ip now aJti rJti recID
      = (.fail 401 "AUTHENTICATION_FAILED" "Invalid email or password",
         users, db) ∧
    loginHandler idKey hasher mac j users db e2 pw2 ua ip now aJti rJti recID
      = (.fail 401 "AUTHENTICATION_FAILED" "Invalid email or password",
         users, db) ∧
    (authenticateUser idKey hasher users e1 pw1 now).1 =
      (authenticateUser idKey hasher users e2 pw2 now).1 := by
  unfold loginHandler authenticateUser
  rw [hfind, habsent]
  dsimp only
  rw [hpw]
  dsimp only
  rw [hwrong]
  exact ⟨rfl, rfl, rfl⟩

/-- C6 witness: concrete table; wrong password for `alice@example.com`
versus the absent `carol@example.com`. -/
theorem login_failures_indistinguishable_witness :
    loginHandler idKeyDemo hasherDemo macZero jDemo usersDemo dbDemo
      "alice@example.com" [113, 119] "ua" "ip" 50 "a" "r" 9
      = (.fail 401 "AUTHENTICATION_FAILED" "Invalid email or password",
         usersDemo, dbDemo) :=
  (login_failures_indistinguishable idKeyDemo hasherDemo macZero jDemo
    usersDemo dbDemo "alice@example.com" "carol@example.com" [113, 119]
    [1, 2] "ua" "ip" 50 "a" "r" 9 userAlice hashDemo (by decide) (by decide)
    (by decide) (by decide)).1

/-! ### Lemmas about `strings.Fields` -/

/-- `goFieldsGo` accumulates a run of non-space characters into the
current word. -/
theorem goFieldsGo_nonspace :
    ∀ (w rest acc : List Char), (∀ c ∈ w, goIsSpace c = false) →
      goFieldsGo (w ++ rest) acc = goFieldsGo rest (acc ++ w)
  | [], rest, acc, _ => by simp
  | c :: w, rest, acc, h => by
    have hc : goIsSpace c = false := h c (by simp)
    have hrec := goFieldsGo_nonspace w rest (acc ++ [c])
      (fun x hx => h x (by simp [hx]))
    simp only [List.cons_append, goFieldsGo, hc, Bool.false_eq_true,
      if_false, List.append_eq] at hrec ⊢
    rw [hrec]
    simp [List.append_assoc]

/-- A space after a nonempty word closes the word. -/
theorem goFieldsGo_space (rest acc : List Char) (hacc : acc ≠ []) :
    goFieldsGo (' ' :: rest) acc = acc :: goFieldsGo rest [] := by
  have : acc.isEmpty = false := by
    cases acc
    · exact absurd rfl hacc
    · rfl
  have hsp : goIsSpace ' ' = true := by decide
  simp [goFieldsGo, hsp, this]

/-- `strings.Fields` of `<scheme> <token>`, both nonempty and free of
whitespace, is the two-element list. -/
theorem goFields_two (sch tok : List Char) (hs : sch ≠ []) (ht : tok ≠ [])
    (hsw : ∀ c ∈ sch, goIsSpace c = false)
    (htw : ∀ c ∈ tok, goIsSpace c = false) :
    goFields (sch ++ ' ' :: tok) = [sch, tok] := by
  unfold goFields
  rw [goFieldsGo_nonspace sch (' ' :: tok) [] hsw]
  rw [List.nil_append]
  rw [goFieldsGo_space tok sch hs]
  rw [show (tok : List Char) = tok ++ [] from by simp]
  rw [goFieldsGo_nonspace tok [] [] htw]
  have : tok.isEmpty = false := by
    cases tok
    · exact absurd rfl ht
    · rfl
  simp [goFieldsGo, this]

/-- C7 counterexample: a header containing a tab (whitespace that is not
the space character) with exactly two dots is returned whole by
`ExtractTokenFromHeader`, where the claim requires the empty string. -/
theorem extract_tab_header_cex :
    extractTokenFromHeader tabHeader = tabHeader ∧
    tabHeader ≠ [] ∧
    '\t' ∈ tabHeader ∧ goIsSpace '\t' = true ∧
    tabHeader.count '.' = 2 := by
  decide

/-- C7 (amended): extraction returns the token for `Bearer <token>`
headers (case-insensitive scheme, whitespace-free nonempty fields); for
every other header it returns the header itself exactly when the header
contains no space character (U+0020) and exactly two dots — other
whitespace, such as a tab, does not disqualify it — and the empty string
otherwise. -/
theorem extract_token_characterization :
    (∀ sch tok : List Char, sch ≠ [] → tok ≠ [] →
      (∀ c ∈ sch, goIsSpace c = false) → (∀ c ∈ tok, goIsSpace c = false) →
      goToLower sch = "bearer".toList →
      extractTokenFromHeader (sch ++ ' ' :: tok) = tok) ∧
    (∀ h : List Char, ¬bearerShape h →
      ((h.any (fun c => c = ' ') = false ∧ h.count '.' = 2) →
        extractTokenFromHeader h = h) ∧
      (¬(h.any (fun c => c = ' ') = false ∧ h.count '.' = 2) →
        extractTokenFromHeader h = [])) := by
  constructor
  · intro sch tok hs ht hsw htw hlow
    unfold extractTokenFromHeader
    rw [goFields_two sch tok hs ht hsw htw]
    simp [hlow]
  · intro h hnb
    have hcond : (decide ((goFields h).length = 2) &&
        decide (goToLower ((goFields h).getD 0 []) = "bearer".toList))
        = false := by
      rw [Bool.and_eq_false_iff]
      by_cases h2 : (goFields h).length = 2
      · right
        simp only [decide_eq_false_iff_not]
        intro hlow
        exact hnb ⟨h2, hlow⟩
      · left
        simp only [decide_eq_false_iff_not]
        exact h2
    constructor
    · rintro ⟨hspace, hdots⟩
      unfold extractTokenFromHeader
      rw [if_neg (by simp_all), if_pos (by simp_all)]
    · intro hno
      unfold extractTokenFromHeader
      rw [if_neg (by simp_all), if_neg (by simp_all)]

/-- C7 witness: the `Bearer` rule and the bare-token characterization on
concrete headers. -/
theorem extract_token_characterization_witness :
    extractTokenFromHeader ("Bearer".toList ++ ' ' :: "a.b.c".toList)
      = "a.b.c".toList :=
  extract_token_characterization.1 "Bearer".toList "a.b.c".toList
    (by decide) (by decide) (by decide) (by decide) (by decide)

end MusicAuth
